import Mathlib

set_option maxRecDepth 8000

/-!
Shallow embedding of the answer-classification and progress-tracking logic
of `src/app.py` (SEA Math Super-Tutor).

Modelling conventions:
* Python strings are `List Char`.
* `datetime` instants are abstract `Nat` clock values; calendar dates are
  abstract `Nat` day ordinals.
* The Google-Sheets activity log is a `List LogRow` (`AppState.store`);
  success or failure of a sheets append is an explicit `ok : Bool`
  parameter, because the Python code swallows every sheets exception.
* `str.lower` is modelled on the ASCII range (the markers the code matches
  are ASCII words and case-free glyphs, so nothing in the claims depends on
  non-ASCII case folding).
-/

/-- Characters that Python `str.splitlines` treats as line boundaries. -/
def isLineBoundary (c : Char) : Bool :=
  c == Char.ofNat 10 || c == Char.ofNat 13 || c == Char.ofNat 11 ||
  c == Char.ofNat 12 || c == Char.ofNat 28 || c == Char.ofNat 29 ||
  c == Char.ofNat 30 || c == Char.ofNat 133 || c == Char.ofNat 8232 ||
  c == Char.ofNat 8233

/-- Characters stripped by Python `str.strip` (the whitespace subset the
replies can contain: ASCII whitespace, NEL and NBSP). -/
def isPyWhitespace (c : Char) : Bool :=
  c == Char.ofNat 32 || c == Char.ofNat 9 || c == Char.ofNat 10 ||
  c == Char.ofNat 13 || c == Char.ofNat 11 || c == Char.ofNat 12 ||
  c == Char.ofNat 28 || c == Char.ofNat 29 || c == Char.ofNat 30 ||
  c == Char.ofNat 31 || c == Char.ofNat 133 || c == Char.ofNat 160

/-- Python `str.strip`: drop whitespace at both ends. -/
def stripBoth (s : List Char) : List Char :=
  ((s.dropWhile isPyWhitespace).reverse.dropWhile isPyWhitespace).reverse

/-- Python `str.lower`, restricted to the ASCII range. -/
def asciiLower (c : Char) : Char :=
  if 65 ≤ c.toNat ∧ c.toNat ≤ 90 then Char.ofNat (c.toNat + 32) else c

def lowerAll (s : List Char) : List Char := s.map asciiLower

/-- String literal to character list. -/
def lc (s : String) : List Char := s.data

/-- The apostrophe character (U+0027). -/
def apoChar : Char := Char.ofNat 39

/-- `startsWithChars hay needle`: `needle` is a leading segment of `hay`. -/
def startsWithChars : List Char → List Char → Bool
  | _, [] => true
  | [], _ :: _ => false
  | a :: s, b :: t => a == b && startsWithChars s t

/-- Python `needle in hay`: contiguous-substring test. -/
def strContains : List Char → List Char → Bool
  | [], needle => needle.isEmpty
  | a :: s, needle => startsWithChars (a :: s) needle || strContains s needle

/-- `correct_markers` from `src/app.py` (`show_practice_screen`). -/
def correct_markers : List (List Char) :=
  [lc "✅", lc "✓", lc "correct!", lc "yes!", lc "excellent!",
   lc "great job!", lc "well done!", lc "perfect!", lc "right!",
   lc "exactly!", lc "spot on!", lc "you got it"]

/-- `incorrect_markers` from `src/app.py` (`show_practice_screen`). -/
def incorrect_markers : List (List Char) :=
  [lc "❌", lc "✗", lc "not quite", lc "incorrect",
   lc "that" ++ [apoChar] ++ lc "s not right",
   lc "try again", lc "not correct", lc "wrong", lc "almost"]

/-- `response_text.splitlines()[0].strip().lower()` from `src/app.py` line
801.  On the empty string `splitlines()` returns the empty list, so the
`[0]` index raises `IndexError`; modelled as `none`. -/
def firstLineOf : List Char → Option (List Char)
  | [] => none
  | a :: s =>
    some (lowerAll (stripBoth ((a :: s).takeWhile (fun c => ! isLineBoundary c))))

/-- Does the first line contain any marker of the set? (`any(marker in
first_line for marker in markers)`). -/
def hasMarker (firstLine : List Char) (markers : List (List Char)) : Bool :=
  markers.any (fun m => strContains firstLine m)

/-- The classifier of `src/app.py` lines 801-812: returns
`(has_correct, has_incorrect)`, or `none` when the first-line extraction
raises on an empty reply. -/
def classifyReply (reply : List Char) : Option (Bool × Bool) :=
  match firstLineOf reply with
  | none => none
  | some fl => some (hasMarker fl correct_markers, hasMarker fl incorrect_markers)

/-- One row of the `Activity_Log` sheet, as built by
`log_student_activity` in `src/app.py` lines 415-424. -/
structure LogRow where
  timestamp : Nat
  studentId : List Char
  studentName : List Char
  questionType : List Char
  strand : List Char
  correctYesNo : List Char
  timeSeconds : Nat
deriving DecidableEq

/-- The `"Yes" if correct else "No"` cell. -/
def yesNo (b : Bool) : List Char := if b then lc "Yes" else lc "No"

/-- The session state mutated by the practice-screen handlers, plus the
external activity store (`store`) that `flush_pending_logs` appends to. -/
structure AppState where
  questions_answered : Nat
  correct_answers : Nat
  daily_date : Nat
  daily_count : Nat
  pending_logs : List LogRow
  store : List LogRow
  question_start_time : Nat
deriving DecidableEq

/-- Per-session constants: student identity and chosen topic. -/
structure Env where
  student_id : List Char
  student_name : List Char
  topic : List Char
deriving DecidableEq

/-- `flush_pending_logs` from `src/app.py` lines 399-410: early return on an
empty queue; on success append all pending rows to the sheet and clear the
queue; any exception (including an unavailable sheets client, `ok = false`)
is swallowed with the queue untouched. -/
def flush_pending_logs (ok : Bool) (st : AppState) : AppState :=
  if st.pending_logs.isEmpty then st
  else if ok then
    { st with store := st.store ++ st.pending_logs, pending_logs := [] }
  else st

/-- `log_student_activity` from `src/app.py` lines 412-430: build the row,
append it to `pending_logs`, increment `daily_usage["count"]`, and flush
once 5 or more rows are pending. -/
def log_student_activity (ok : Bool) (now : Nat) (student_id student_name
    question_type strand : List Char) (correct : Bool) (time_seconds : Nat)
    (st : AppState) : AppState :=
  let row : LogRow :=
    ⟨now, student_id, student_name, question_type, strand, yesNo correct,
     time_seconds⟩
  let st1 : AppState :=
    { st with pending_logs := st.pending_logs ++ [row],
              daily_count := st.daily_count + 1 }
  if 5 ≤ st1.pending_logs.length then flush_pending_logs ok st1 else st1

/-- The answer-handling tail of `show_practice_screen` (`src/app.py` lines
800-831): classify the reply; on feedback bump the counters, log the
attempt with the elapsed time since the question was issued, and reset the
question timer; otherwise leave the state untouched.  `none` models the
`IndexError` on an empty reply. -/
def processReply (ok : Bool) (env : Env) (now : Nat) (st : AppState)
    (reply : List Char) : Option AppState :=
  match classifyReply reply with
  | none => none
  | some (has_correct, has_incorrect) =>
    if has_correct || has_incorrect then
      let st1 : AppState :=
        { st with questions_answered := st.questions_answered + 1,
                  correct_answers :=
                    st.correct_answers + (if has_correct then 1 else 0) }
      let time_seconds := now - st.question_start_time
      let st2 := log_student_activity ok now env.student_id env.student_name
        (lc "Question") env.topic has_correct time_seconds st1
      some { st2 with question_start_time := now }
    else
      some st

/-- `check_daily_limit` from `src/app.py` lines 509-536: reset the usage
counter when the stored date is stale, then report whether the per-student
ceiling blocks the turn (`st.stop()` in the source). -/
def check_daily_limit (limit today : Nat) (st : AppState) : AppState × Bool :=
  let st1 : AppState :=
    if st.daily_date ≠ today then
      { st with daily_date := today, daily_count := 0 }
    else st
  (st1, decide (limit ≤ st1.daily_count))

/-- One practice-screen turn (`src/app.py` lines 727-831): the daily-limit
gate runs first; a blocked turn stops before the classifier.  The second
component records whether the classifier ran. -/
def practiceTurn (ok : Bool) (limit today : Nat) (env : Env) (now : Nat)
    (st : AppState) (reply : List Char) : Option AppState × Bool :=
  let gate := check_daily_limit limit today st
  if gate.2 then (some gate.1, false)
  else (processReply ok env now gate.1 reply, true)

/-- `update_student_summary` from `src/app.py` lines 432-477, restricted to
its effect on the modelled state: it first calls `flush_pending_logs`; the
subsequent writes touch only the `Students` summary sheet, which is outside
the modelled state. -/
def update_student_summary (ok : Bool) (st : AppState) : AppState :=
  flush_pending_logs ok st

/-- States reached along a session: the initial state followed by the state
after each processed turn; a classifier error ends the trace. -/
def sessionStates (ok : Bool) (env : Env) (st : AppState) :
    List (Nat × List Char) → List AppState
  | [] => [st]
  | (now, reply) :: rest =>
    match processReply ok env now st reply with
    | none => [st]
    | some st2 => st :: sessionStates ok env st2 rest

/-- Badge tiers of the streak threshold table. -/
inductive BadgeTier
  | bronze
  | silver
  | gold
  | platinum
  | diamond
deriving DecidableEq

/-- Modelled from the spec: the threshold-to-tier map `{5 → Bronze,
10 → Silver, 15 → Gold, 20 → Platinum, 25 → Diamond}` of spec section 4.1.
The streak/badge machinery is absent from `src/app.py` (only the unused
`badge_progress` dict is initialized at lines 365-370), so it is modelled
from the spec text. -/
def badgeForStreak (n : Nat) : Option BadgeTier :=
  if n = 5 then some BadgeTier.bronze
  else if n = 10 then some BadgeTier.silver
  else if n = 15 then some BadgeTier.gold
  else if n = 20 then some BadgeTier.platinum
  else if n = 25 then some BadgeTier.diamond
  else none

/-- Streak counters of spec section 3. -/
structure StreakState where
  currentStreak : Nat
  bestStreak : Nat
deriving DecidableEq

/-- Events the streak machine of spec section 4.1 can emit. -/
inductive SpecEvent
  | badgeAward (tier : BadgeTier) (studentName : List Char)
  | streakEnded
deriving DecidableEq

/-- Modelled from the spec: the streak state transition of spec section 4.1
(`currentStreak`, `bestStreak`, badge awards at the fixed thresholds, and
the streak-ended notice for a reset of a streak of at least 5), which has
no implementation in `src/app.py`. -/
def streakStep (studentName : List Char) (st : StreakState) (correct : Bool) :
    StreakState × List SpecEvent :=
  if correct then
    let cs := st.currentStreak + 1
    let bs := max st.bestStreak cs
    (⟨cs, bs⟩,
      match badgeForStreak cs with
      | some t => [SpecEvent.badgeAward t studentName]
      | none => [])
  else
    (⟨0, st.bestStreak⟩,
      if 5 ≤ st.currentStreak then [SpecEvent.streakEnded] else [])

/-- Badge-award recogniser on events. -/
def isBadgeEvent : SpecEvent → Bool
  | SpecEvent.badgeAward _ _ => true
  | SpecEvent.streakEnded => false

/-- The session counters that must be independent of persistence failures. -/
def countersOf (st : AppState) : Nat × Nat × Nat × Nat × Nat :=
  (st.questions_answered, st.correct_answers, st.daily_date, st.daily_count,
   st.question_start_time)

/-- Concrete environment used by witnesses and counterexamples. -/
def env0 : Env := ⟨lc "STU1", lc "Alice Jones", lc "Number"⟩

/-- Concrete fresh session state used by witnesses and counterexamples. -/
def st0 : AppState := ⟨0, 0, 0, 0, [], [], 0⟩

/-- Concrete state with a stale daily-usage date, used by a witness. -/
def stStale : AppState := ⟨0, 0, 1, 3, [], [], 0⟩

/-! ### Helper lemmas -/

lemma flush_fields (ok : Bool) (st : AppState) :
    (flush_pending_logs ok st).questions_answered = st.questions_answered ∧
    (flush_pending_logs ok st).correct_answers = st.correct_answers ∧
    (flush_pending_logs ok st).daily_date = st.daily_date ∧
    (flush_pending_logs ok st).daily_count = st.daily_count ∧
    (flush_pending_logs ok st).question_start_time = st.question_start_time ∧
    (flush_pending_logs ok st).pending_logs.length +
      (flush_pending_logs ok st).store.length =
      st.pending_logs.length + st.store.length := by
  unfold flush_pending_logs
  split
  · exact ⟨rfl, rfl, rfl, rfl, rfl, rfl⟩
  · split
    · refine ⟨rfl, rfl, rfl, rfl, rfl, ?_⟩
      simp [List.length_append]
      omega
    · exact ⟨rfl, rfl, rfl, rfl, rfl, rfl⟩

lemma flush_true_pending (st : AppState) :
    (flush_pending_logs true st).pending_logs = [] := by
  cases h : st.pending_logs <;> simp [flush_pending_logs, h]

lemma log_fields (ok : Bool) (now : Nat) (sid sname qt strand : List Char)
    (c : Bool) (ts : Nat) (st : AppState) :
    (log_student_activity ok now sid sname qt strand c ts st).questions_answered =
      st.questions_answered ∧
    (log_student_activity ok now sid sname qt strand c ts st).correct_answers =
      st.correct_answers ∧
    (log_student_activity ok now sid sname qt strand c ts st).daily_date =
      st.daily_date ∧
    (log_student_activity ok now sid sname qt strand c ts st).daily_count =
      st.daily_count + 1 ∧
    (log_student_activity ok now sid sname qt strand c ts st).question_start_time =
      st.question_start_time ∧
    (log_student_activity ok now sid sname qt strand c ts st).pending_logs.length +
      (log_student_activity ok now sid sname qt strand c ts st).store.length =
      st.pending_logs.length + st.store.length + 1 := by
  dsimp only [log_student_activity]
  split
  · refine ⟨(flush_fields ok _).1, (flush_fields ok _).2.1, (flush_fields ok _).2.2.1,
      (flush_fields ok _).2.2.2.1, (flush_fields ok _).2.2.2.2.1, ?_⟩
    have h := (flush_fields ok (AppState.mk st.questions_answered
      st.correct_answers st.daily_date (st.daily_count + 1)
      (st.pending_logs ++ [LogRow.mk now sid sname qt strand (yesNo c) ts])
      st.store st.question_start_time)).2.2.2.2.2
    simp only [List.length_append, List.length_cons, List.length_nil] at h
    omega
  · refine ⟨rfl, rfl, rfl, rfl, rfl, ?_⟩
    simp only [List.length_append, List.length_cons, List.length_nil]
    omega

lemma log_small (ok : Bool) (now : Nat) (sid sname qt strand : List Char)
    (c : Bool) (ts : Nat) (st : AppState)
    (h : st.pending_logs.length + 1 < 5) :
    log_student_activity ok now sid sname qt strand c ts st =
      AppState.mk st.questions_answered st.correct_answers st.daily_date
        (st.daily_count + 1)
        (st.pending_logs ++ [LogRow.mk now sid sname qt strand (yesNo c) ts])
        st.store st.question_start_time := by
  dsimp only [log_student_activity]
  rw [if_neg]
  simp only [List.length_append, List.length_cons, List.length_nil]
  omega

lemma log_big_ok (now : Nat) (sid sname qt strand : List Char)
    (c : Bool) (ts : Nat) (st : AppState)
    (h : 5 ≤ st.pending_logs.length + 1) :
    log_student_activity true now sid sname qt strand c ts st =
      AppState.mk st.questions_answered st.correct_answers st.daily_date
        (st.daily_count + 1) []
        (st.store ++
          (st.pending_logs ++ [LogRow.mk now sid sname qt strand (yesNo c) ts]))
        st.question_start_time := by
  dsimp only [log_student_activity]
  rw [if_pos]
  · dsimp only [flush_pending_logs]
    rw [if_neg, if_pos rfl]
    simp [List.isEmpty_eq_true]
  · simp only [List.length_append, List.length_cons, List.length_nil]
    omega

lemma processReply_feedback (ok : Bool) (env : Env) (now : Nat) (st : AppState)
    (reply fl : List Char) (hfl : firstLineOf reply = some fl)
    (hfb : (hasMarker fl correct_markers || hasMarker fl incorrect_markers) = true) :
    processReply ok env now st reply =
      some { log_student_activity ok now env.student_id env.student_name
              (lc "Question") env.topic (hasMarker fl correct_markers)
              (now - st.question_start_time)
              { st with questions_answered := st.questions_answered + 1,
                        correct_answers := st.correct_answers +
                          (if hasMarker fl correct_markers then 1 else 0) }
             with question_start_time := now } := by
  dsimp only [processReply, classifyReply]
  rw [hfl]
  dsimp only []
  rw [if_pos hfb]

lemma processReply_nonFeedback (ok : Bool) (env : Env) (now : Nat)
    (st : AppState) (reply fl : List Char) (hfl : firstLineOf reply = some fl)
    (hpos : hasMarker fl correct_markers = false)
    (hneg : hasMarker fl incorrect_markers = false) :
    processReply ok env now st reply = some st := by
  dsimp only [processReply, classifyReply]
  rw [hfl]
  dsimp only []
  rw [hpos, hneg]
  rfl

lemma processReply_mono (ok : Bool) (env : Env) (now : Nat) (st : AppState)
    (reply : List Char) (st2 : AppState)
    (h : processReply ok env now st reply = some st2) :
    st.questions_answered ≤ st2.questions_answered ∧
    st.correct_answers ≤ st2.correct_answers ∧
    (st.correct_answers ≤ st.questions_answered →
      st2.correct_answers ≤ st2.questions_answered) := by
  dsimp only [processReply] at h
  cases hc : classifyReply reply with
  | none => rw [hc] at h; exact absurd h (by simp)
  | some p =>
    rw [hc] at h
    obtain ⟨hcor, hinc⟩ := p
    dsimp only [] at h
    by_cases hf : (hcor || hinc) = true
    · rw [if_pos hf] at h
      have h2 := Option.some.inj h
      have hq := (log_fields ok now env.student_id env.student_name
        (lc "Question") env.topic hcor (now - st.question_start_time)
        { st with questions_answered := st.questions_answered + 1,
                  correct_answers := st.correct_answers +
                    (if hcor then 1 else 0) }).1
      have hca := (log_fields ok now env.student_id env.student_name
        (lc "Question") env.topic hcor (now - st.question_start_time)
        { st with questions_answered := st.questions_answered + 1,
                  correct_answers := st.correct_answers +
                    (if hcor then 1 else 0) }).2.1
      have e1 : st2.questions_answered = st.questions_answered + 1 := by
        rw [← h2]; exact hq
      have e2 : st2.correct_answers =
          st.correct_answers + (if hcor then 1 else 0) := by
        rw [← h2]; exact hca
      refine ⟨?_, ?_, ?_⟩
      · rw [e1]; omega
      · rw [e2]; cases hcor <;> simp
      · intro hle
        rw [e1, e2]
        cases hcor <;> simp <;> omega
    · rw [if_neg hf] at h
      have h2 := Option.some.inj h
      subst h2
      exact ⟨le_refl _, le_refl _, fun h => h⟩

lemma sessionStates_head (ok : Bool) (env : Env) (st : AppState)
    (turns : List (Nat × List Char)) :
    ∃ t, sessionStates ok env st turns = st :: t := by
  cases turns with
  | nil => exact ⟨[], rfl⟩
  | cons p rest =>
    obtain ⟨now, reply⟩ := p
    dsimp only [sessionStates]
    cases h : processReply ok env now st reply with
    | none => exact ⟨[], rfl⟩
    | some st2 => exact ⟨_, rfl⟩

lemma feedback_fields (ok : Bool) (env : Env) (now : Nat) (st : AppState)
    (reply fl : List Char) (hfl : firstLineOf reply = some fl)
    (hfb : (hasMarker fl correct_markers || hasMarker fl incorrect_markers) = true) :
    ∃ st2, processReply ok env now st reply = some st2 ∧
      st2.questions_answered = st.questions_answered + 1 ∧
      st2.correct_answers = st.correct_answers +
        (if hasMarker fl correct_markers then 1 else 0) ∧
      st2.daily_date = st.daily_date ∧
      st2.daily_count = st.daily_count + 1 ∧
      st2.question_start_time = now ∧
      st2.pending_logs.length + st2.store.length =
        st.pending_logs.length + st.store.length + 1 := by
  have h := log_fields ok now env.student_id env.student_name (lc "Question")
    env.topic (hasMarker fl correct_markers) (now - st.question_start_time)
    { st with questions_answered := st.questions_answered + 1,
              correct_answers := st.correct_answers +
                (if hasMarker fl correct_markers then 1 else 0) }
  exact ⟨_, processReply_feedback ok env now st reply fl hfl hfb,
    h.1, h.2.1, h.2.2.1, h.2.2.2.1, rfl, h.2.2.2.2.2⟩

/-- C1, counterexample: the reply `"✅ Not quite, check the units."` has a
positive marker (the check glyph) and a negative marker (`"not quite"`) in
its lower-cased first line, yet the code treats it as feedback classified
correct: `questions_answered`, `correct_answers` and the daily-usage count
all change and a log row is queued, refuting the claim that such a reply is
treated as not feedback. -/
theorem C1_counterexample :
    classifyReply (lc "✅ Not quite, check the units.") = some (true, true) ∧
    processReply true env0 7 st0 (lc "✅ Not quite, check the units.") =
      some (AppState.mk 1 1 0 1
        [LogRow.mk 7 (lc "STU1") (lc "Alice Jones") (lc "Question")
          (lc "Number") (lc "Yes") 7] [] 7) :=
  ⟨by decide, by decide⟩

/-- C1 (amended): for every reply whose lower-cased first line contains at
least one positive marker and at least one negative marker, the code treats
the reply as feedback classified correct (the positive marker wins):
`questions_answered`, `correct_answers` and `daily_usage.count` each
increase by 1 and one activity-log row is queued (counting pending rows
together with rows flushed to the store). -/
theorem C1_pos_wins (ok : Bool) (env : Env) (now : Nat) (st : AppState)
    (reply fl : List Char) (hfl : firstLineOf reply = some fl)
    (hpos : hasMarker fl correct_markers = true)
    (hneg : hasMarker fl incorrect_markers = true) :
    ∃ st2, processReply ok env now st reply = some st2 ∧
      st2.questions_answered = st.questions_answered + 1 ∧
      st2.correct_answers = st.correct_answers + 1 ∧
      st2.daily_count = st.daily_count + 1 ∧
      st2.pending_logs.length + st2.store.length =
        st.pending_logs.length + st.store.length + 1 := by
  have hfb : (hasMarker fl correct_markers ||
      hasMarker fl incorrect_markers) = true := by
    rw [hpos, hneg]; rfl
  obtain ⟨st2, hp, h1, h2, _, h4, _, h6⟩ :=
    feedback_fields ok env now st reply fl hfl hfb
  refine ⟨st2, hp, h1, ?_, h4, h6⟩
  rw [hpos] at h2
  simpa using h2

/-- Witness for C1 (amended) at the counterexample reply. -/
theorem C1_pos_wins_witness :
    ∃ st2, processReply true env0 7 st0
        (lc "✅ Not quite, check the units.") = some st2 ∧
      st2.questions_answered = st0.questions_answered + 1 ∧
      st2.correct_answers = st0.correct_answers + 1 ∧
      st2.daily_count = st0.daily_count + 1 ∧
      st2.pending_logs.length + st2.store.length =
        st0.pending_logs.length + st0.store.length + 1 :=
  C1_pos_wins true env0 7 st0 (lc "✅ Not quite, check the units.")
    (lc "✅ not quite, check the units.") (by decide) (by decide) (by decide)

/-- C2: classification first extracts the text up to the first line break
and lower-cases (and strips) it; when neither marker set matches the first
line, the whole session state — in particular `questions_answered`,
`correct_answers`, `daily_usage.count` and the pending-log queue — is left
unchanged. -/
theorem C2_no_match_no_change (ok : Bool) (env : Env) (now : Nat)
    (st : AppState) (reply fl : List Char)
    (hfl : firstLineOf reply = some fl)
    (hpos : hasMarker fl correct_markers = false)
    (hneg : hasMarker fl incorrect_markers = false) :
    firstLineOf reply =
      some (lowerAll (stripBoth
        (reply.takeWhile (fun c => ! isLineBoundary c)))) ∧
    processReply ok env now st reply = some st := by
  constructor
  · cases reply with
    | nil => exact absurd hfl (by simp [firstLineOf])
    | cons a s => rfl
  · exact processReply_nonFeedback ok env now st reply fl hfl hpos hneg

/-- Witness for C2 at the spec scenario reply `"What is 45 ÷ 9?"`. -/
theorem C2_witness :
    firstLineOf (lc "What is 45 ÷ 9?") =
      some (lowerAll (stripBoth
        ((lc "What is 45 ÷ 9?").takeWhile (fun c => ! isLineBoundary c)))) ∧
    processReply true env0 7 st0 (lc "What is 45 ÷ 9?") = some st0 :=
  C2_no_match_no_change true env0 7 st0 (lc "What is 45 ÷ 9?")
    (lc "what is 45 ÷ 9?") (by decide) (by decide) (by decide)

/-- C3: on a feedback turn, a correct classification increments
`currentStreak` by exactly 1 and never decreases `bestStreak`; a wrong
classification sets `currentStreak` to 0 whatever its prior value and
leaves `bestStreak` unchanged. -/
theorem C3_streak_rules (name : List Char) (st : StreakState) :
    ((streakStep name st true).1.currentStreak = st.currentStreak + 1 ∧
     st.bestStreak ≤ (streakStep name st true).1.bestStreak) ∧
    ((streakStep name st false).1.currentStreak = 0 ∧
     (streakStep name st false).1.bestStreak = st.bestStreak) := by
  refine ⟨⟨rfl, ?_⟩, rfl, rfl⟩
  show st.bestStreak ≤ max st.bestStreak (st.currentStreak + 1)
  exact le_max_left _ _

/-- C4: on a correct classification a badge-award event carrying the
student's name is emitted exactly when the new streak value is a threshold,
with the deterministic tier map 5 → Bronze, 10 → Silver, 15 → Gold,
20 → Platinum, 25 → Diamond; a wrong classification emits no badge event,
and no value outside the threshold set maps to a badge. -/
theorem C4_badge_rules (name : List Char) (st : StreakState) :
    ((streakStep name st true).2 =
      match badgeForStreak (st.currentStreak + 1) with
      | some t => [SpecEvent.badgeAward t name]
      | none => []) ∧
    ((streakStep name st false).2.filter isBadgeEvent = []) ∧
    badgeForStreak 5 = some BadgeTier.bronze ∧
    badgeForStreak 10 = some BadgeTier.silver ∧
    badgeForStreak 15 = some BadgeTier.gold ∧
    badgeForStreak 20 = some BadgeTier.platinum ∧
    badgeForStreak 25 = some BadgeTier.diamond ∧
    (∀ n, badgeForStreak n = none ∨ n ∈ [5, 10, 15, 20, 25]) := by
  refine ⟨rfl, ?_, rfl, rfl, rfl, rfl, rfl, ?_⟩
  · show (if 5 ≤ st.currentStreak then [SpecEvent.streakEnded]
      else []).filter isBadgeEvent = []
    split <;> rfl
  · intro n
    simp only [badgeForStreak]
    split_ifs with h1 h2 h3 h4 h5
    · subst h1; right; decide
    · subst h2; right; decide
    · subst h3; right; decide
    · subst h4; right; decide
    · subst h5; right; decide
    · left; rfl

/-- C5: along every sequence of processed turns, `questions_answered` and
`correct_answers` never decrease from one state to the next, and
`correct_answers ≤ questions_answered` holds at every state of the session
(given it holds initially; the code initializes both to 0). -/
theorem C5_session_counters (ok : Bool) (env : Env) (st : AppState)
    (turns : List (Nat × List Char))
    (hinv : st.correct_answers ≤ st.questions_answered) :
    (∀ s ∈ sessionStates ok env st turns,
      s.correct_answers ≤ s.questions_answered) ∧
    List.Chain' (fun a b => a.questions_answered ≤ b.questions_answered ∧
      a.correct_answers ≤ b.correct_answers)
      (sessionStates ok env st turns) := by
  induction turns generalizing st with
  | nil =>
    refine ⟨?_, ?_⟩
    · intro s hs
      simp only [sessionStates, List.mem_singleton] at hs
      subst hs
      exact hinv
    · simp [sessionStates]
  | cons p rest ih =>
    obtain ⟨now, reply⟩ := p
    dsimp only [sessionStates]
    cases h : processReply ok env now st reply with
    | none =>
      dsimp only []
      refine ⟨?_, ?_⟩
      · intro s hs
        simp only [List.mem_singleton] at hs
        subst hs
        exact hinv
      · simp
    | some st2 =>
      dsimp only []
      have hm := processReply_mono ok env now st reply st2 h
      have ih2 := ih st2 (hm.2.2 hinv)
      obtain ⟨t, ht⟩ := sessionStates_head ok env st2 rest
      refine ⟨?_, ?_⟩
      · intro s hs
        rcases List.mem_cons.mp hs with h1 | h2
        · subst h1
          exact hinv
        · exact ih2.1 s h2
      · rw [ht]
        rw [ht] at ih2
        exact List.chain'_cons.mpr ⟨⟨hm.1, hm.2.1⟩, ih2.2⟩

/-- Witness for C5 on a concrete one-turn session. -/
theorem C5_witness :
    (∀ s ∈ sessionStates true env0 st0 [(3, lc "✅ Correct! Great job.")],
      s.correct_answers ≤ s.questions_answered) ∧
    List.Chain' (fun a b => a.questions_answered ≤ b.questions_answered ∧
      a.correct_answers ≤ b.correct_answers)
      (sessionStates true env0 st0 [(3, lc "✅ Correct! Great job.")]) :=
  C5_session_counters true env0 st0 [(3, lc "✅ Correct! Great job.")]
    (by decide)

/-- C6: every feedback turn appends exactly one activity-log record built
from the student's identity, the current topic, the correctness verdict and
the elapsed time since the question was issued, increments
`daily_usage.count` by 1 and resets the question timer; the queue is
flushed to the external store exactly when it reaches 5 entries (given the
store append succeeds), and also on session exit. -/
theorem C6_feedback_logging (ok : Bool) (env : Env) (now : Nat)
    (st : AppState) (reply fl : List Char)
    (hfl : firstLineOf reply = some fl)
    (hfb : (hasMarker fl correct_markers ||
      hasMarker fl incorrect_markers) = true) :
    ∃ st2, processReply ok env now st reply = some st2 ∧
      st2.daily_count = st.daily_count + 1 ∧
      st2.question_start_time = now ∧
      (st.pending_logs.length + 1 < 5 →
        st2.pending_logs = st.pending_logs ++
          [LogRow.mk now env.student_id env.student_name (lc "Question")
            env.topic (yesNo (hasMarker fl correct_markers))
            (now - st.question_start_time)] ∧
        st2.store = st.store) ∧
      (5 ≤ st.pending_logs.length + 1 → ok = true →
        st2.pending_logs = [] ∧
        st2.store = st.store ++ st.pending_logs ++
          [LogRow.mk now env.student_id env.student_name (lc "Question")
            env.topic (yesNo (hasMarker fl correct_markers))
            (now - st.question_start_time)]) ∧
      (update_student_summary true st2).pending_logs = [] := by
  have key := processReply_feedback ok env now st reply fl hfl hfb
  have h := log_fields ok now env.student_id env.student_name (lc "Question")
    env.topic (hasMarker fl correct_markers) (now - st.question_start_time)
    { st with questions_answered := st.questions_answered + 1,
              correct_answers := st.correct_answers +
                (if hasMarker fl correct_markers then 1 else 0) }
  refine ⟨_, key, h.2.2.2.1, rfl, ?_, ?_, flush_true_pending _⟩
  · intro hlen
    have e := log_small ok now env.student_id env.student_name (lc "Question")
      env.topic (hasMarker fl correct_markers) (now - st.question_start_time)
      { st with questions_answered := st.questions_answered + 1,
                correct_answers := st.correct_answers +
                  (if hasMarker fl correct_markers then 1 else 0) } hlen
    rw [e]
    exact ⟨rfl, rfl⟩
  · intro hlen hok
    subst hok
    have e := log_big_ok now env.student_id env.student_name (lc "Question")
      env.topic (hasMarker fl correct_markers) (now - st.question_start_time)
      { st with questions_answered := st.questions_answered + 1,
                correct_answers := st.correct_answers +
                  (if hasMarker fl correct_markers then 1 else 0) } hlen
    rw [e]
    exact ⟨rfl, by simp [List.append_assoc]⟩

/-- Witness for C6 at the spec scenario reply `"❌ Not quite, try again."`. -/
theorem C6_witness :
    ∃ st2, processReply true env0 9 st0 (lc "❌ Not quite, try again.") =
        some st2 ∧
      st2.daily_count = st0.daily_count + 1 ∧
      st2.question_start_time = 9 ∧
      (st0.pending_logs.length + 1 < 5 →
        st2.pending_logs = st0.pending_logs ++
          [LogRow.mk 9 env0.student_id env0.student_name (lc "Question")
            env0.topic
            (yesNo (hasMarker (lc "❌ not quite, try again.") correct_markers))
            (9 - st0.question_start_time)] ∧
        st2.store = st0.store) ∧
      (5 ≤ st0.pending_logs.length + 1 → true = true →
        st2.pending_logs = [] ∧
        st2.store = st0.store ++ st0.pending_logs ++
          [LogRow.mk 9 env0.student_id env0.student_name (lc "Question")
            env0.topic
            (yesNo (hasMarker (lc "❌ not quite, try again.") correct_markers))
            (9 - st0.question_start_time)]) ∧
      (update_student_summary true st2).pending_logs = [] :=
  C6_feedback_logging true env0 9 st0 (lc "❌ Not quite, try again.")
    (lc "❌ not quite, try again.") (by decide) (by decide)

/-- C7: a failure of the external store (`ok = false`) changes none of the
session counters, the classification outcome or the question timer — only
the pending queue and the store can differ — and processing always
completes (returns a state) on every non-empty reply, whatever the store
does: the exception is swallowed, never propagated. -/
theorem C7_store_failure_harmless (env : Env) (now : Nat) (st : AppState)
    (reply : List Char) :
    (∀ ok1 ok2 : Bool, (processReply ok1 env now st reply).map countersOf =
      (processReply ok2 env now st reply).map countersOf) ∧
    (∀ ok : Bool, reply ≠ [] →
      (processReply ok env now st reply).isSome = true) := by
  constructor
  · intro ok1 ok2
    dsimp only [processReply]
    cases hc : classifyReply reply with
    | none => rfl
    | some p =>
      obtain ⟨hcor, hinc⟩ := p
      dsimp only []
      by_cases hf : (hcor || hinc) = true
      · rw [if_pos hf, if_pos hf]
        dsimp only [Option.map, countersOf]
        have h1 := log_fields ok1 now env.student_id env.student_name
          (lc "Question") env.topic hcor (now - st.question_start_time)
          { st with questions_answered := st.questions_answered + 1,
                    correct_answers := st.correct_answers +
                      (if hcor then 1 else 0) }
        have h2 := log_fields ok2 now env.student_id env.student_name
          (lc "Question") env.topic hcor (now - st.question_start_time)
          { st with questions_answered := st.questions_answered + 1,
                    correct_answers := st.correct_answers +
                      (if hcor then 1 else 0) }
        rw [h1.1, h1.2.1, h1.2.2.1, h1.2.2.2.1,
          h2.1, h2.2.1, h2.2.2.1, h2.2.2.2.1]
      · rw [if_neg hf, if_neg hf]
  · intro ok h
    cases reply with
    | nil => exact absurd rfl h
    | cons a s =>
      dsimp only [processReply, classifyReply, firstLineOf]
      split <;> rfl

/-- Witness for C7 at a concrete correct-feedback reply. -/
theorem C7_witness :
    (∀ ok1 ok2 : Bool,
      (processReply ok1 env0 4 st0 (lc "✅ Correct!")).map countersOf =
      (processReply ok2 env0 4 st0 (lc "✅ Correct!")).map countersOf) ∧
    (processReply false env0 4 st0 (lc "✅ Correct!")).isSome = true :=
  ⟨(C7_store_failure_harmless env0 4 st0 (lc "✅ Correct!")).1,
   (C7_store_failure_harmless env0 4 st0 (lc "✅ Correct!")).2 false
     (by decide)⟩

/-- C8: a stale `daily_usage.date` is reset to today with count 0 before
the limit test, and whenever the (possibly reset) count is at or above the
ceiling the turn stops at the gate: the classifier never runs (the flag of
`practiceTurn` is `false` and the state is exactly the gate output). -/
theorem C8_daily_gate (ok : Bool) (limit today : Nat) (env : Env) (now : Nat)
    (st : AppState) (reply : List Char) :
    (st.daily_date ≠ today →
      (check_daily_limit limit today st).1 =
        { st with daily_date := today, daily_count := 0 }) ∧
    (limit ≤ (check_daily_limit limit today st).1.daily_count →
      practiceTurn ok limit today env now st reply =
        (some (check_daily_limit limit today st).1, false)) := by
  constructor
  · intro h
    dsimp only [check_daily_limit]
    rw [if_pos h]
  · intro h
    dsimp only [check_daily_limit] at h
    dsimp only [practiceTurn, check_daily_limit]
    rw [if_pos (decide_eq_true h)]

/-- Witness for C8: stale date resets, and a ceiling of 0 blocks the turn
before classification. -/
theorem C8_witness :
    (check_daily_limit 0 2 stStale).1 =
      { stStale with daily_date := 2, daily_count := 0 } ∧
    practiceTurn true 0 2 env0 5 stStale (lc "hi") =
      (some (check_daily_limit 0 2 stStale).1, false) :=
  ⟨(C8_daily_gate true 0 2 env0 5 stStale (lc "hi")).1 (by decide),
   (C8_daily_gate true 0 2 env0 5 stStale (lc "hi")).2 (by decide)⟩

/-- C9: on the empty reply the first-line extraction indexes an empty list
of lines and fails (an `IndexError` in the source, `none` here) instead of
returning a classification; on every non-empty reply classification
succeeds — the classifier is total exactly on non-empty replies. -/
theorem C9_empty_reply (reply : List Char) :
    classifyReply [] = none ∧
    (reply ≠ [] → (classifyReply reply).isSome = true) := by
  constructor
  · rfl
  · intro h
    cases reply with
    | nil => exact absurd rfl h
    | cons a s => rfl

/-- Witness for C9 at a one-word reply. -/
theorem C9_witness :
    classifyReply [] = none ∧ (classifyReply (lc "hi")).isSome = true :=
  ⟨(C9_empty_reply (lc "hi")).1, (C9_empty_reply (lc "hi")).2 (by decide)⟩

/-- C10: a failed flush leaves the queue (and the whole state) unchanged —
entries are removed only after a successful batch append — so the entries
pending before the failure are exactly the ones the next successful flush
appends to the store, emptying the queue. -/
theorem C10_failed_flush (st : AppState) :
    flush_pending_logs false st = st ∧
    (flush_pending_logs true (flush_pending_logs false st)).store =
      st.store ++ st.pending_logs ∧
    (flush_pending_logs true (flush_pending_logs false st)).pending_logs
      = [] := by
  have h : flush_pending_logs false st = st := by
    dsimp only [flush_pending_logs]
    split
    · rfl
    · rfl
  refine ⟨h, ?_, ?_⟩
  · rw [h]
    cases hp : st.pending_logs <;> simp [flush_pending_logs, hp]
  · rw [h]
    exact flush_true_pending st
